import Mathlib

/-!
Verification of the multi-fragment audio playback engine
(`src/components/recording/audio-player.tsx`).

The component is shallowly embedded: React `useState`/`useRef` cells become
fields of `PlayerState`, the event handlers and callbacks become pure state
transformers, and times/durations (JS numbers) are modelled as rationals.
The immutable props (`src`, `fragments`) are a separate record, since they
are fixed for the lifetime of a mount.
-/

/-- One recording fragment (interface `AudioFragment`).  `duration = 0`
means the duration is not yet known. -/
structure AudioFragment where
  src : String
  duration : ℚ
  sessionUid : String
  createdAt : String
deriving DecidableEq

/-- The props relevant to playback: the legacy single `src` and the
optional ordered `fragments` list. -/
structure AudioPlayerProps where
  src : Option String
  fragments : Option (List AudioFragment)
deriving DecidableEq

/-- The mutable state of the player.  The first block mirrors the React
state hooks; `wasPlaying`, `pendingSeek`, `lastLoadedSrc`, `retryTimers`
mirror the refs; `engineTime`, `enginePaused`, `playRequested` model the
underlying `<audio>` element (`audio.currentTime`, `audio.paused`, a
`play()` call having been issued); `appliedPendingSeeks` is ghost history
recording every offset the metadata handler ever wrote to the engine. -/
structure PlayerState where
  isPlaying : Bool
  isLoading : Bool
  currentTime : ℚ
  duration : ℚ
  isMuted : Bool
  errorCount : ℕ
  currentFragmentIndex : ℕ
  fragmentDurations : List ℚ
  wasPlaying : Bool
  pendingSeek : Option ℚ
  lastLoadedSrc : String
  retryTimers : ℕ
  engineTime : ℚ
  enginePaused : Bool
  playRequested : Bool
  appliedPendingSeeks : List ℚ
deriving DecidableEq

/-- `const isMultiFragment = fragments && fragments.length > 1`. -/
def isMultiFragment (p : AudioPlayerProps) : Bool :=
  match p.fragments with
  | some fs => decide (1 < fs.length)
  | none => false

/-- `const effectiveFragments = fragments && fragments.length > 0 ? fragments
: src ? [{ src, duration: 0, sessionUid: "", createdAt: "" }] : []`. -/
def effectiveFragments (p : AudioPlayerProps) : List AudioFragment :=
  match p.fragments with
  | some fs =>
    if 0 < fs.length then fs
    else match p.src with
      | some u => [⟨u, 0, "", ""⟩]
      | none => []
  | none =>
    match p.src with
    | some u => [⟨u, 0, "", ""⟩]
    | none => []

/-- `const currentSrc = currentFragment?.src || src || ""`. -/
def currentSrc (p : AudioPlayerProps) (s : PlayerState) : String :=
  match (effectiveFragments p).get? s.currentFragmentIndex with
  | some f => if f.src = "" then (p.src.getD "") else f.src
  | none => p.src.getD ""

/-- `const totalDuration = isMultiFragment ? fragmentDurations.reduce((sum, d)
=> sum + d, 0) : duration`. -/
def totalDuration (p : AudioPlayerProps) (s : PlayerState) : ℚ :=
  if isMultiFragment p then s.fragmentDurations.sum else s.duration

/-- `const virtualOffset = isMultiFragment ? fragmentDurations.slice(0,
currentFragmentIndex).reduce((sum, d) => sum + d, 0) : 0`. -/
def virtualOffset (p : AudioPlayerProps) (s : PlayerState) : ℚ :=
  if isMultiFragment p then (s.fragmentDurations.take s.currentFragmentIndex).sum else 0

/-- `const virtualCurrentTime = virtualOffset + currentTime`. -/
def virtualCurrentTime (p : AudioPlayerProps) (s : PlayerState) : ℚ :=
  virtualOffset p s + s.currentTime

/-- `updateFragmentDuration(index, dur)`: copies the array and assigns
`updated[index] = dur`.  Modelled with `List.set` (in the component the
index is always in range, so the JS sparse-array extension case does not
arise). -/
def updateFragmentDuration (index : ℕ) (dur : ℚ) (ds : List ℚ) : List ℚ :=
  ds.set index dur

/-- The seeding effect: `setFragmentDurations(effectiveFragments.map(f =>
f.duration || 0))`, run only when `effectiveFragments.length > 0`.
(`f.duration || 0` maps a missing/zero duration to `0`, which for the
rational model is the identity on the stored field.) -/
def seedDurations (p : AudioPlayerProps) (s : PlayerState) : PlayerState :=
  if 0 < (effectiveFragments p).length then
    { s with fragmentDurations := (effectiveFragments p).map (·.duration) }
  else s

/-- The virtual-time resolution loop of `seekTo` (lines 141-148):
walk the durations; stop at index `i` with the current remainder when
`remaining <= fragmentDurations[i]` or `i` is the last index. -/
def seekToResolve : List ℚ → ℚ → Option (ℕ × ℚ)
  | [], _ => none
  | d :: tl, t =>
    if t ≤ d ∨ tl = [] then some (0, t)
    else (seekToResolve tl (t - d)).map (fun pr => (pr.1 + 1, pr.2))

/-- The virtual-time resolution loop of `handleSeekBarChange` (lines
291-298); textually the same walk as the one in `seekTo`. -/
def seekBarResolve : List ℚ → ℚ → Option (ℕ × ℚ)
  | [], _ => none
  | d :: tl, t =>
    if t ≤ d ∨ tl = [] then some (0, t)
    else (seekBarResolve tl (t - d)).map (fun pr => (pr.1 + 1, pr.2))

/-- `seekToFragment(fragmentIndex, timeInFragment)`: out-of-range index is a
no-op; same fragment seeks the engine directly (and plays if paused);
a different fragment records the target in state and lets the
fragment-change effect do the switch. -/
def seekToFragment (p : AudioPlayerProps) (i : ℕ) (t : ℚ) (s : PlayerState) : PlayerState :=
  if i < (effectiveFragments p).length then
    if i = s.currentFragmentIndex then
      { s with engineTime := t, currentTime := t,
               playRequested := s.playRequested || s.enginePaused }
    else
      { s with wasPlaying := true, currentFragmentIndex := i, currentTime := t }
  else s

/-- The ref-exposed `seekTo(time)`: single-source mode seeks the engine
directly; multi-fragment mode resolves the virtual time and delegates to
`seekToFragment`. -/
def seekTo (p : AudioPlayerProps) (t : ℚ) (s : PlayerState) : PlayerState :=
  if isMultiFragment p then
    match seekToResolve s.fragmentDurations t with
    | some pr => seekToFragment p pr.1 pr.2 s
    | none => s
  else
    { s with engineTime := t, currentTime := t,
             playRequested := s.playRequested || s.enginePaused }

/-- `handleSeekBarChange`: single-source mode seeks the engine directly
(no auto-play); multi-fragment mode resolves the virtual time and
delegates to `seekToFragment`. -/
def handleSeekBarChange (p : AudioPlayerProps) (t : ℚ) (s : PlayerState) : PlayerState :=
  if isMultiFragment p then
    match seekBarResolve s.fragmentDurations t with
    | some pr => seekToFragment p pr.1 pr.2 s
    | none => s
  else
    { s with engineTime := t, currentTime := t }

/-- The fragment-change effect (lines 158-171): when `currentSrc` is
non-empty and differs from the last loaded source, record the pending seek
(`pendingSeekRef.current = currentTime`), enter loading, and switch the
engine source (`audio.src = currentSrc; audio.load()` resets the engine
position). -/
def fragmentEffect (p : AudioPlayerProps) (s : PlayerState) : PlayerState :=
  if currentSrc p s = "" then s
  else if s.lastLoadedSrc = currentSrc p s then s
  else
    { s with lastLoadedSrc := currentSrc p s,
             pendingSeek := some s.currentTime,
             isLoading := true,
             engineTime := 0,
             enginePaused := true }

/-- `handleLoadedMetadata`: record the engine-reported duration, leave
loading, apply a pending seek if one is queued, and resume playback if the
transport was playing before the switch. -/
def handleLoadedMetadata (d : ℚ) (s : PlayerState) : PlayerState :=
  let s1 := { s with duration := d,
                     fragmentDurations :=
                       updateFragmentDuration s.currentFragmentIndex d s.fragmentDurations,
                     isLoading := false }
  let s2 :=
    match s1.pendingSeek with
    | some t =>
      { s1 with engineTime := t, pendingSeek := none,
                appliedPendingSeeks := s1.appliedPendingSeeks ++ [t] }
    | none => s1
  if s2.wasPlaying then { s2 with playRequested := true, wasPlaying := false } else s2

/-- `handleCanPlay`: leave loading and reset the error streak. -/
def handleCanPlay (s : PlayerState) : PlayerState :=
  { s with isLoading := false, errorCount := 0 }

/-- `handleWaiting`. -/
def handleWaiting (s : PlayerState) : PlayerState :=
  { s with isLoading := true }

/-- `handlePlaying`. -/
def handlePlaying (s : PlayerState) : PlayerState :=
  { s with isLoading := false, isPlaying := true, enginePaused := false }

/-- `handlePause`. -/
def handlePause (s : PlayerState) : PlayerState :=
  { s with isPlaying := false, enginePaused := true }

/-- `handleEnded`: in multi-fragment mode with a later fragment remaining,
advance by one, reset physical time to 0 and mark was-playing; otherwise
stop. -/
def handleEnded (p : AudioPlayerProps) (s : PlayerState) : PlayerState :=
  if isMultiFragment p ∧ s.currentFragmentIndex < (effectiveFragments p).length - 1 then
    { s with wasPlaying := true, currentTime := 0,
             currentFragmentIndex := s.currentFragmentIndex + 1 }
  else
    { s with isPlaying := false }

/-- `handleError`: stop, enter loading, bump the error streak, cancel any
scheduled retry timer and schedule a single fresh reload. -/
def handleError (s : PlayerState) : PlayerState :=
  let s1 := { s with isPlaying := false, isLoading := true, errorCount := s.errorCount + 1 }
  let s2 := { s1 with retryTimers := 0 }
  { s2 with retryTimers := s2.retryTimers + 1 }

/-- `handleTimeUpdate`: the engine reports position `t`, which is stored in
state. -/
def handleTimeUpdate (t : ℚ) (s : PlayerState) : PlayerState :=
  { s with engineTime := t, currentTime := t }

/-- The value `handleTimeUpdate` passes to `onTimeUpdate`: the virtual time
(offset recomputed from the ledger) in multi-fragment mode, the raw
physical time otherwise. -/
def handleTimeUpdateReport (p : AudioPlayerProps) (s : PlayerState) (t : ℚ) : ℚ :=
  if isMultiFragment p then (s.fragmentDurations.take s.currentFragmentIndex).sum + t else t

/-- `togglePlay`: pause when playing, otherwise issue `play()`. -/
def togglePlay (s : PlayerState) : PlayerState :=
  if s.isPlaying then { s with enginePaused := true } else { s with playRequested := true }

/-- `toggleMute`. -/
def toggleMute (s : PlayerState) : PlayerState :=
  { s with isMuted := !s.isMuted }

/-- The cumulative fold producing fragment-boundary markers: for every
index but the last, push the running position plus that duration. -/
def markersAux : List ℚ → ℚ → List ℚ
  | [], _ => []
  | d :: tl, pos =>
    if tl = [] then [] else (pos + d) :: markersAux tl (pos + d)

/-- `fragmentMarkers` (lines 306-314): boundary positions, produced only in
multi-fragment mode with a positive total duration. -/
def fragmentMarkers (p : AudioPlayerProps) (s : PlayerState) : List ℚ :=
  if isMultiFragment p ∧ 0 < totalDuration p s then markersAux s.fragmentDurations 0 else []

/-- The "Preparing audio..." hint (line 402): shown iff loading with a
nonzero error streak. -/
def preparingHint (s : PlayerState) : Bool :=
  s.isLoading && decide (0 < s.errorCount)

/-- The state at mount: all hooks at their `useState` initial values, the
refs cleared, and `lastLoadedSrcRef` initialised to the first render's
`currentSrc`. -/
def initState (p : AudioPlayerProps) : PlayerState :=
  let base : PlayerState :=
    { isPlaying := false, isLoading := true, currentTime := 0, duration := 0,
      isMuted := false, errorCount := 0, currentFragmentIndex := 0,
      fragmentDurations := [], wasPlaying := false, pendingSeek := none,
      lastLoadedSrc := "", retryTimers := 0, engineTime := 0,
      enginePaused := true, playRequested := false, appliedPendingSeeks := [] }
  { base with lastLoadedSrc := currentSrc p base }

/-- One atomic transition of the player: a caller operation, an engine
event, or one of the effects.  This is the event-driven, single-threaded
execution model of the component. -/
inductive Step (p : AudioPlayerProps) : PlayerState → PlayerState → Prop
  | seed (s : PlayerState) : Step p s (seedDurations p s)
  | seekFrag (s : PlayerState) (i : ℕ) (t : ℚ) : Step p s (seekToFragment p i t s)
  | seekVirtual (s : PlayerState) (t : ℚ) : Step p s (seekTo p t s)
  | seekBar (s : PlayerState) (t : ℚ) : Step p s (handleSeekBarChange p t s)
  | fragEffect (s : PlayerState) : Step p s (fragmentEffect p s)
  | metadata (s : PlayerState) (d : ℚ) : Step p s (handleLoadedMetadata d s)
  | canPlay (s : PlayerState) : Step p s (handleCanPlay s)
  | waiting (s : PlayerState) : Step p s (handleWaiting s)
  | playing (s : PlayerState) : Step p s (handlePlaying s)
  | pauseEvent (s : PlayerState) : Step p s (handlePause s)
  | ended (s : PlayerState) : Step p s (handleEnded p s)
  | errorEvent (s : PlayerState) : Step p s (handleError s)
  | timeUpdate (s : PlayerState) (t : ℚ) : Step p s (handleTimeUpdate t s)
  | togglePlayOp (s : PlayerState) : Step p s (togglePlay s)
  | toggleMuteOp (s : PlayerState) : Step p s (toggleMute s)

/-- A state is reachable when some finite sequence of steps leads to it
from the mount state. -/
def Reachable (p : AudioPlayerProps) (s : PlayerState) : Prop :=
  Relation.ReflTransGen (Step p) (initState p) s

/-- The three-fragment props of the [30, unknown, 45] scenario. -/
def scenarioProps : AudioPlayerProps :=
  { src := none,
    fragments := some [⟨"a", 30, "u0", "t0"⟩, ⟨"b", 0, "u1", "t1"⟩, ⟨"c", 45, "u2", "t2"⟩] }

/-- The scenario state: mount followed by the duration-seeding effect, so
the ledger is [30, 0, 45]. -/
def scenarioState : PlayerState :=
  seedDurations scenarioProps (initState scenarioProps)

/-- C1 counterexample: with ledger [30, 0, 45], the virtual-seek walk sends
virtual time 50 to fragment 2 (the last) with offset 20, not to fragment 1
as the claim states — the zero-duration fragment does not absorb the
remainder. -/
theorem c1_counterexample :
    seekToResolve [30, 0, 45] 50 ≠ some (1, 20) ∧
    ¬((seekTo scenarioProps 50 scenarioState).currentFragmentIndex = 1 ∧
      (seekTo scenarioProps 50 scenarioState).currentTime = 20) := by
  constructor
  · norm_num [seekToResolve, List.cons_ne_nil]
  · norm_num [seekTo, seekToFragment, seekToResolve, isMultiFragment,
      effectiveFragments, seedDurations, initState, scenarioProps, scenarioState,
      currentSrc, List.cons_ne_nil]

/-- C1 amended: with ledger [30, 0, 45] (fragment 1 unknown, seeded 0),
seeking to virtual time 50 resolves to the LAST fragment, index 2, with
local offset 20: a fragment whose duration is unknown does not absorb the
remainder; only the final fragment does. -/
theorem c1_amended :
    seekToResolve [30, 0, 45] 50 = some (2, 20) ∧
    (seekTo scenarioProps 50 scenarioState).currentFragmentIndex = 2 ∧
    (seekTo scenarioProps 50 scenarioState).currentTime = 20 := by
  refine ⟨by norm_num [seekToResolve, List.cons_ne_nil], ?_, ?_⟩ <;>
    norm_num [seekTo, seekToFragment, seekToResolve, isMultiFragment,
      effectiveFragments, seedDurations, initState, scenarioProps, scenarioState,
      currentSrc, List.cons_ne_nil]

/-- C9 counterexample: record 40 at index 1, then record the placeholder 0
at the same index: the ledger entry drops to 0, below the observed 40 — an
observed duration IS retracted by a later placeholder write. -/
theorem c9_counterexample :
    (updateFragmentDuration 1 40 [30, 0, 45]).getD 1 0 = 40 ∧
    (updateFragmentDuration 1 0 (updateFragmentDuration 1 40 [30, 0, 45])).getD 1 0 = 0 ∧
    ¬(40 : ℚ) ≤ (updateFragmentDuration 1 0 (updateFragmentDuration 1 40 [30, 0, 45])).getD 1 0 := by
  norm_num [updateFragmentDuration]

/-- C9 amended: `updateFragmentDuration` overwrites the ledger entry
unconditionally with whatever value it is given — there is no monotonicity
guard, so any later write (including a placeholder or a re-seed) replaces
an observed duration. -/
theorem c9_amended (i : ℕ) (d : ℚ) (ds : List ℚ) (h : i < ds.length) :
    (updateFragmentDuration i d ds).getD i 0 = d := by
  simp [updateFragmentDuration, List.getD_eq_getElem?_getD, List.getElem?_set_eq_of_lt, h]

/-- C9 amended witness at a concrete input. -/
theorem c9_amended_witness :
    (updateFragmentDuration 1 7 [30, 0, 45]).getD 1 0 = 7 :=
  c9_amended 1 7 [30, 0, 45] (by norm_num)

/-- The two inlined resolution loops are the same function. -/
theorem seekToResolve_eq_seekBarResolve :
    ∀ (ds : List ℚ) (t : ℚ), seekToResolve ds t = seekBarResolve ds t := by
  intro ds
  induction ds with
  | nil => intro t; rfl
  | cons d tl ih =>
    intro t
    simp only [seekToResolve, seekBarResolve]
    rw [ih]

/-- A prefix sum through a positive entry of a nonnegative list is
positive. -/
theorem sum_take_pos_of_getD_pos :
    ∀ (ds : List ℚ) (i : ℕ), i < ds.length → (∀ d ∈ ds, 0 ≤ d) →
      0 < ds.getD i 0 → 0 < (ds.take (i + 1)).sum := by
  intro ds
  induction ds with
  | nil => intro i hi _ _; exact absurd hi (Nat.not_lt_zero i)
  | cons d tl ih =>
    intro i hi hnn hpos
    cases i with
    | zero => simpa using hpos
    | succ j =>
      have hj : j < tl.length := Nat.lt_of_succ_lt_succ hi
      have h0 : 0 ≤ d := hnn d (List.mem_cons_self d tl)
      have htl : ∀ x ∈ tl, 0 ≤ x := fun x hx => hnn x (List.mem_cons_of_mem d hx)
      have hpos2 : 0 < tl.getD j 0 := by simpa [List.getD_cons_succ] using hpos
      have hT := ih j hj htl hpos2
      rw [List.take_succ_cons, List.sum_cons]
      linarith

/-- The boundary rule of the resolution walk: a virtual time exactly equal
to the end of fragment `i` (the sum of durations through `i`) resolves to
fragment `i` itself with local offset `duration i`, provided the durations
are nonnegative and fragment `i` has positive duration. -/
theorem seekToResolve_boundary :
    ∀ (ds : List ℚ) (i : ℕ), i < ds.length → (∀ d ∈ ds, 0 ≤ d) →
      0 < ds.getD i 0 →
      seekToResolve ds ((ds.take (i + 1)).sum) = some (i, ds.getD i 0) := by
  intro ds
  induction ds with
  | nil => intro i hi _ _; exact absurd hi (Nat.not_lt_zero i)
  | cons d tl ih =>
    intro i hi hnn hpos
    cases i with
    | zero =>
      have h1 : (((d :: tl).take 1).sum) = d := by simp
      rw [h1]
      simp [seekToResolve, List.getD]
    | succ j =>
      have hj : j < tl.length := Nat.lt_of_succ_lt_succ hi
      have htl : ∀ x ∈ tl, 0 ≤ x := fun x hx => hnn x (List.mem_cons_of_mem d hx)
      have hpos2 : 0 < tl.getD j 0 := by simpa [List.getD_cons_succ] using hpos
      have hT : 0 < (tl.take (j + 1)).sum := sum_take_pos_of_getD_pos tl j hj htl hpos2
      have hne : tl ≠ [] := List.ne_nil_of_length_pos (Nat.lt_of_le_of_lt (Nat.zero_le j) hj)
      rw [List.take_succ_cons, List.sum_cons]
      simp only [seekToResolve]
      have hcond : ¬(d + (tl.take (j + 1)).sum ≤ d ∨ tl = []) := by
        push_neg
        exact ⟨by linarith, hne⟩
      rw [if_neg hcond, add_sub_cancel_left, ih j hj htl hpos2]
      simp [List.getD_cons_succ]

/-- C2: the seek-bar mapping and the ref-exposed virtual seek resolve every
virtual time identically (in multi-fragment mode the whole state updates
agree), and a virtual time exactly on a fragment boundary deterministically
selects the earlier fragment: `remaining ≤ duration[i]` selects fragment
`i` (for nonnegative durations with `duration[i]` positive). -/
theorem c2_seek_mappings_agree_and_boundary :
    (∀ (ds : List ℚ) (t : ℚ), seekToResolve ds t = seekBarResolve ds t) ∧
    (∀ (p : AudioPlayerProps) (t : ℚ) (s : PlayerState),
      isMultiFragment p = true → seekTo p t s = handleSeekBarChange p t s) ∧
    (∀ (ds : List ℚ) (i : ℕ), i < ds.length → (∀ d ∈ ds, 0 ≤ d) →
      0 < ds.getD i 0 →
      seekToResolve ds ((ds.take (i + 1)).sum) = some (i, ds.getD i 0)) := by
  refine ⟨seekToResolve_eq_seekBarResolve, ?_, seekToResolve_boundary⟩
  intro p t s hm
  simp only [seekTo, handleSeekBarChange, hm]
  rw [seekToResolve_eq_seekBarResolve]
  simp

/-- C2 witness: the boundary rule and the agreement of the two seek paths
at concrete inputs. -/
theorem c2_witness :
    seekToResolve [30, 40] ((([30, 40] : List ℚ).take 1).sum) =
      some (0, ([30, 40] : List ℚ).getD 0 0) ∧
    seekTo scenarioProps 50 scenarioState = handleSeekBarChange scenarioProps 50 scenarioState :=
  ⟨c2_seek_mappings_agree_and_boundary.2.2 [30, 40] 0 (by norm_num)
      (by norm_num) (by norm_num [List.getD]),
   c2_seek_mappings_agree_and_boundary.2.1 scenarioProps 50 scenarioState
      (by norm_num [isMultiFragment, scenarioProps])⟩

/-- Outside multi-fragment mode the effective fragment list has at most one
element. -/
theorem effectiveFragments_length_le_one (p : AudioPlayerProps)
    (hm : isMultiFragment p = false) : (effectiveFragments p).length ≤ 1 := by
  obtain ⟨src, fragments⟩ := p
  cases fragments with
  | none => cases src <;> simp [effectiveFragments]
  | some fs =>
    simp only [isMultiFragment] at hm
    have h1 : fs.length ≤ 1 := by simpa using hm
    simp only [effectiveFragments]
    split
    · exact h1
    · cases src <;> simp

/-- `seedDurations` leaves the fragment index unchanged. -/
theorem seedDurations_index (p : AudioPlayerProps) (s : PlayerState) :
    (seedDurations p s).currentFragmentIndex = s.currentFragmentIndex := by
  unfold seedDurations
  split <;> rfl

/-- `fragmentEffect` leaves the fragment index unchanged. -/
theorem fragmentEffect_index (p : AudioPlayerProps) (s : PlayerState) :
    (fragmentEffect p s).currentFragmentIndex = s.currentFragmentIndex := by
  unfold fragmentEffect
  split
  · rfl
  · split <;> rfl

/-- `handleLoadedMetadata` leaves the fragment index unchanged. -/
theorem handleLoadedMetadata_index (d : ℚ) (s : PlayerState) :
    (handleLoadedMetadata d s).currentFragmentIndex = s.currentFragmentIndex := by
  unfold handleLoadedMetadata
  dsimp only
  split <;> split <;> rfl

/-- Outside multi-fragment mode every step preserves `currentFragmentIndex
= 0`. -/
theorem step_preserves_index_zero (p : AudioPlayerProps)
    (hm : isMultiFragment p = false) (s s2 : PlayerState) (hst : Step p s s2)
    (h0 : s.currentFragmentIndex = 0) : s2.currentFragmentIndex = 0 := by
  have hlen := effectiveFragments_length_le_one p hm
  cases hst with
  | seed => rw [seedDurations_index]; exact h0
  | seekFrag i t =>
    unfold seekToFragment
    split
    · split
      · simpa using h0
      · rename_i hlt _
        show i = 0
        omega
    · exact h0
  | seekVirtual t =>
    unfold seekTo
    rw [hm]
    simpa using h0
  | seekBar t =>
    unfold handleSeekBarChange
    rw [hm]
    simpa using h0
  | fragEffect => rw [fragmentEffect_index]; exact h0
  | metadata d => rw [handleLoadedMetadata_index]; exact h0
  | canPlay => exact h0
  | waiting => exact h0
  | playing => exact h0
  | pauseEvent => exact h0
  | ended =>
    unfold handleEnded
    rw [if_neg]
    · exact h0
    · rintro ⟨hmp, _⟩
      rw [hm] at hmp
      exact Bool.false_ne_true hmp
  | errorEvent => exact h0
  | timeUpdate t => exact h0
  | togglePlayOp =>
    unfold togglePlay
    split <;> exact h0
  | toggleMuteOp => exact h0

/-- Outside multi-fragment mode every reachable state has fragment index
0. -/
theorem reachable_single_index_zero (p : AudioPlayerProps)
    (hm : isMultiFragment p = false) (s : PlayerState) (h : Reachable p s) :
    s.currentFragmentIndex = 0 := by
  induction h with
  | refl => rfl
  | tail _ hst ih => exact step_preserves_index_zero p hm _ _ hst ih

/-- C3: in every reachable state, the derived `virtualCurrentTime` equals
the sum of the ledger durations of the fragments before the current one
plus the current physical time. -/
theorem c3_virtual_time_invariant (p : AudioPlayerProps) (s : PlayerState)
    (h : Reachable p s) :
    virtualCurrentTime p s =
      (s.fragmentDurations.take s.currentFragmentIndex).sum + s.currentTime := by
  unfold virtualCurrentTime virtualOffset
  cases hm : isMultiFragment p
  · have h0 := reachable_single_index_zero p hm s h
    simp [hm, h0]
  · simp [hm]

/-- C3 witness: the invariant instantiated at the mount state of the
three-fragment scenario. -/
theorem c3_witness :
    virtualCurrentTime scenarioProps (initState scenarioProps) =
      ((initState scenarioProps).fragmentDurations.take
        (initState scenarioProps).currentFragmentIndex).sum +
        (initState scenarioProps).currentTime :=
  c3_virtual_time_invariant scenarioProps (initState scenarioProps)
    Relation.ReflTransGen.refl

/-- A single-fragment prop set whose one fragment has a declared duration
of 30 seconds. -/
def singleFragProps : AudioPlayerProps :=
  { src := none, fragments := some [⟨"a", 30, "u0", "t0"⟩] }

/-- The single-fragment mount state after the seeding effect: the ledger
holds [30] but no metadata has arrived yet. -/
def singleFragState : PlayerState :=
  seedDurations singleFragProps (initState singleFragProps)

/-- C4 counterexample: with exactly one fragment of declared duration 30,
in the reachable state right after seeding the ledger holds [30] (sum 30)
while the derived total duration is the media-reported `duration`, still 0
— the total is NOT the ledger sum for single-fragment sets. -/
theorem c4_counterexample :
    Reachable singleFragProps singleFragState ∧
    totalDuration singleFragProps singleFragState = 0 ∧
    singleFragState.fragmentDurations.sum = 30 ∧
    totalDuration singleFragProps singleFragState ≠
      singleFragState.fragmentDurations.sum := by
  refine ⟨Relation.ReflTransGen.single (Step.seed _), ?_, ?_, ?_⟩ <;>
    norm_num [totalDuration, isMultiFragment, singleFragProps, singleFragState,
      seedDurations, effectiveFragments, initState]

/-- C4 amended: in multi-fragment mode (at least two fragments) the derived
total duration equals the sum of all current Duration Ledger entries, in
every state; for single-fragment sets it is the media-reported duration
instead. -/
theorem c4_amended (p : AudioPlayerProps) (s : PlayerState)
    (hm : isMultiFragment p = true) :
    totalDuration p s = s.fragmentDurations.sum := by
  simp [totalDuration, hm]

/-- C4 amended witness at the three-fragment scenario. -/
theorem c4_amended_witness :
    totalDuration scenarioProps scenarioState = scenarioState.fragmentDurations.sum :=
  c4_amended scenarioProps scenarioState (by norm_num [isMultiFragment, scenarioProps])

/-- C5 counterexample: seek A into fragment 2 (pending offset 11, load in
flight), then seek B into fragment 0 — B issued before A's metadataReady
arrives, exactly the claim's premise.  A's metadata event then arrives
before B's fragment-change effect has run, and the handler applies A's
offset 11 to the engine (applied log [11]): "A's pending offset is never
applied" is false for this interleaving. -/
theorem c5_counterexample :
    (fragmentEffect scenarioProps
        (seekToFragment scenarioProps 2 11 scenarioState)).pendingSeek = some 11 ∧
    (seekToFragment scenarioProps 0 13
        (fragmentEffect scenarioProps
          (seekToFragment scenarioProps 2 11 scenarioState))).currentFragmentIndex = 0 ∧
    (handleLoadedMetadata 29 (seekToFragment scenarioProps 0 13
        (fragmentEffect scenarioProps
          (seekToFragment scenarioProps 2 11 scenarioState)))).engineTime = 11 ∧
    (handleLoadedMetadata 29 (seekToFragment scenarioProps 0 13
        (fragmentEffect scenarioProps
          (seekToFragment scenarioProps 2 11 scenarioState)))).appliedPendingSeeks = [11] ∧
    (11 : ℚ) ∈ (handleLoadedMetadata 29 (seekToFragment scenarioProps 0 13
        (fragmentEffect scenarioProps
          (seekToFragment scenarioProps 2 11 scenarioState)))).appliedPendingSeeks :=
  ⟨rfl, rfl, rfl, rfl, List.mem_singleton.mpr rfl⟩

/-- C5 amended: seek A into fragment 2 followed by seek B into fragment 0.
The pending-seek slot is a single cell, so at most one pending seek is
outstanding and the newer seek's effect overwrites the older pending
target.  Provided B's fragment-change effect runs before any metadata
event arrives, the final state reflects B only: the metadata for B's load
applies B's offset and A's offset never reaches the engine.  (If A's
metadata instead arrives between seek B and B's effect, A's stale offset
is applied — see the counterexample.) -/
theorem c5_last_seek_wins (p : AudioPlayerProps) (f0 f1 f2 : AudioFragment)
    (tA tB d : ℚ) (s : PlayerState)
    (hp : p.fragments = some [f0, f1, f2])
    (h02 : f0.src ≠ f2.src) (h0e : f0.src ≠ "") (h2e : f2.src ≠ "")
    (hidx : s.currentFragmentIndex = 0) (hlast : s.lastLoadedSrc = f0.src)
    (hlog : s.appliedPendingSeeks = []) (hAB : tA ≠ tB) :
    (fragmentEffect p (seekToFragment p 2 tA s)).pendingSeek = some tA ∧
    (fragmentEffect p (seekToFragment p 0 tB
        (fragmentEffect p (seekToFragment p 2 tA s)))).pendingSeek = some tB ∧
    (handleLoadedMetadata d (fragmentEffect p (seekToFragment p 0 tB
        (fragmentEffect p (seekToFragment p 2 tA s))))).pendingSeek = none ∧
    (handleLoadedMetadata d (fragmentEffect p (seekToFragment p 0 tB
        (fragmentEffect p (seekToFragment p 2 tA s))))).engineTime = tB ∧
    (handleLoadedMetadata d (fragmentEffect p (seekToFragment p 0 tB
        (fragmentEffect p (seekToFragment p 2 tA s))))).appliedPendingSeeks = [tB] ∧
    tA ∉ (handleLoadedMetadata d (fragmentEffect p (seekToFragment p 0 tB
        (fragmentEffect p (seekToFragment p 2 tA s))))).appliedPendingSeeks := by
  have heff : effectiveFragments p = [f0, f1, f2] := by
    simp [effectiveFragments, hp]
  have hA : seekToFragment p 2 tA s =
      { s with wasPlaying := true, currentFragmentIndex := 2, currentTime := tA } := by
    unfold seekToFragment
    rw [heff, hidx]
    norm_num
  have hs1 : fragmentEffect p (seekToFragment p 2 tA s) =
      { s with wasPlaying := true, currentFragmentIndex := 2, currentTime := tA,
               lastLoadedSrc := f2.src, pendingSeek := some tA, isLoading := true,
               engineTime := 0, enginePaused := true } := by
    rw [hA]
    unfold fragmentEffect currentSrc
    rw [heff]
    simp [h2e, hlast, h02]
  have hB : seekToFragment p 0 tB (fragmentEffect p (seekToFragment p 2 tA s)) =
      { s with wasPlaying := true, currentFragmentIndex := 0, currentTime := tB,
               lastLoadedSrc := f2.src, pendingSeek := some tA, isLoading := true,
               engineTime := 0, enginePaused := true } := by
    rw [hs1]
    unfold seekToFragment
    rw [heff]
    norm_num
  have hs2 : fragmentEffect p (seekToFragment p 0 tB
      (fragmentEffect p (seekToFragment p 2 tA s))) =
      { s with wasPlaying := true, currentFragmentIndex := 0, currentTime := tB,
               lastLoadedSrc := f0.src, pendingSeek := some tB, isLoading := true,
               engineTime := 0, enginePaused := true } := by
    have h20 : f2.src ≠ f0.src := fun h => h02 h.symm
    rw [hB]
    unfold fragmentEffect currentSrc
    rw [heff]
    simp [h0e, h20]
  refine ⟨?_, ?_, ?_, ?_, ?_, ?_⟩
  · rw [hs1]
  · rw [hs2]
  · rw [hs2]; simp [handleLoadedMetadata]
  · rw [hs2]; simp [handleLoadedMetadata]
  · rw [hs2]; simp [handleLoadedMetadata, hlog]
  · rw [hs2]; simp [handleLoadedMetadata, hlog, hAB]

/-- C5 amended witness: the effect-before-metadata trace at a concrete
fragment set and offsets. -/
theorem c5_witness :
    (fragmentEffect scenarioProps (seekToFragment scenarioProps 2 5 scenarioState)).pendingSeek =
      some 5 ∧
    (fragmentEffect scenarioProps (seekToFragment scenarioProps 0 7
        (fragmentEffect scenarioProps (seekToFragment scenarioProps 2 5 scenarioState)))).pendingSeek =
      some 7 ∧
    (handleLoadedMetadata 33 (fragmentEffect scenarioProps (seekToFragment scenarioProps 0 7
        (fragmentEffect scenarioProps (seekToFragment scenarioProps 2 5 scenarioState))))).pendingSeek =
      none ∧
    (handleLoadedMetadata 33 (fragmentEffect scenarioProps (seekToFragment scenarioProps 0 7
        (fragmentEffect scenarioProps (seekToFragment scenarioProps 2 5 scenarioState))))).engineTime =
      7 ∧
    (handleLoadedMetadata 33 (fragmentEffect scenarioProps (seekToFragment scenarioProps 0 7
        (fragmentEffect scenarioProps (seekToFragment scenarioProps 2 5 scenarioState))))).appliedPendingSeeks =
      [7] ∧
    (5 : ℚ) ∉ (handleLoadedMetadata 33 (fragmentEffect scenarioProps (seekToFragment scenarioProps 0 7
        (fragmentEffect scenarioProps (seekToFragment scenarioProps 2 5 scenarioState))))).appliedPendingSeeks :=
  c5_last_seek_wins scenarioProps ⟨"a", 30, "u0", "t0"⟩ ⟨"b", 0, "u1", "t1"⟩
    ⟨"c", 45, "u2", "t2"⟩ 5 7 33 scenarioState
    rfl (by simp) (by simp) (by simp) rfl rfl rfl (by norm_num)

/-- C6 counterexample: seek into fragment 2 (pending offset 5, load in
flight), then seek back to fragment 0 before the effect re-runs; the
metadata event produced by fragment 2's load now arrives while fragment 2
is no longer the current target — and the handler still applies the stale
pending offset 5 to the engine.  There is no identity check. -/
theorem c6_counterexample :
    (seekToFragment scenarioProps 0 7
        (fragmentEffect scenarioProps
          (seekToFragment scenarioProps 2 5 scenarioState))).currentFragmentIndex = 0 ∧
    (fragmentEffect scenarioProps
        (seekToFragment scenarioProps 2 5 scenarioState)).pendingSeek = some 5 ∧
    (handleLoadedMetadata 33 (seekToFragment scenarioProps 0 7
        (fragmentEffect scenarioProps
          (seekToFragment scenarioProps 2 5 scenarioState)))).engineTime = 5 ∧
    (handleLoadedMetadata 33 (seekToFragment scenarioProps 0 7
        (fragmentEffect scenarioProps
          (seekToFragment scenarioProps 2 5 scenarioState)))).appliedPendingSeeks = [5] :=
  ⟨rfl, rfl, rfl, rfl⟩

/-- C6 amended: `handleLoadedMetadata` performs no identity check at all:
whenever a pending seek offset is queued it is applied unconditionally on
the metadata-ready event, whichever fragment produced the event; staleness
is mitigated only by the fragment-change effect overwriting the single
pending slot. -/
theorem c6_amended (d t : ℚ) (s : PlayerState) (h : s.pendingSeek = some t) :
    (handleLoadedMetadata d s).engineTime = t ∧
    (handleLoadedMetadata d s).pendingSeek = none ∧
    (handleLoadedMetadata d s).appliedPendingSeeks = s.appliedPendingSeeks ++ [t] := by
  cases hw : s.wasPlaying <;> simp [handleLoadedMetadata, h, hw]

/-- C6 amended witness: the unconditional application at a concrete queued
offset. -/
theorem c6_amended_witness :
    (handleLoadedMetadata 33 (fragmentEffect scenarioProps
        (seekToFragment scenarioProps 2 5 scenarioState))).engineTime = 5 ∧
    (handleLoadedMetadata 33 (fragmentEffect scenarioProps
        (seekToFragment scenarioProps 2 5 scenarioState))).pendingSeek = none ∧
    (handleLoadedMetadata 33 (fragmentEffect scenarioProps
        (seekToFragment scenarioProps 2 5 scenarioState))).appliedPendingSeeks =
      (fragmentEffect scenarioProps
        (seekToFragment scenarioProps 2 5 scenarioState)).appliedPendingSeeks ++ [5] :=
  c6_amended 33 5 _ rfl

/-- `fragmentEffect` never touches the was-playing flag. -/
theorem fragmentEffect_wasPlaying (p : AudioPlayerProps) (s : PlayerState) :
    (fragmentEffect p s).wasPlaying = s.wasPlaying := by
  unfold fragmentEffect
  split
  · rfl
  · split <;> rfl

/-- When the was-playing flag is set, the metadata handler issues a
`play()` call. -/
theorem handleLoadedMetadata_playRequested (d : ℚ) (s : PlayerState)
    (h : s.wasPlaying = true) :
    (handleLoadedMetadata d s).playRequested = true := by
  cases hps : s.pendingSeek <;> simp [handleLoadedMetadata, hps, h]

/-- C7: on an `ended` event with a later fragment remaining, the controller
advances the index by exactly one, resets physical time to 0, keeps the
was-playing mark (in particular whenever playback was in progress), and
once the switched fragment's metadata is ready a `play()` is issued; with
no later fragment it stops and leaves the index unchanged. -/
theorem c7_auto_advance (p : AudioPlayerProps) (s : PlayerState) :
    (isMultiFragment p = true →
      s.currentFragmentIndex < (effectiveFragments p).length - 1 →
      (handleEnded p s).currentFragmentIndex = s.currentFragmentIndex + 1 ∧
      (handleEnded p s).currentTime = 0 ∧
      (s.isPlaying = true → (handleEnded p s).wasPlaying = true) ∧
      (∀ d : ℚ,
        (handleLoadedMetadata d (fragmentEffect p (handleEnded p s))).playRequested = true)) ∧
    (¬(isMultiFragment p = true ∧
        s.currentFragmentIndex < (effectiveFragments p).length - 1) →
      (handleEnded p s).isPlaying = false ∧
      (handleEnded p s).currentFragmentIndex = s.currentFragmentIndex) := by
  constructor
  · intro hm hlt
    have hcond : (isMultiFragment p = true) ∧
        s.currentFragmentIndex < (effectiveFragments p).length - 1 := ⟨hm, hlt⟩
    have hadv : handleEnded p s =
        { s with wasPlaying := true, currentTime := 0,
                 currentFragmentIndex := s.currentFragmentIndex + 1 } := by
      unfold handleEnded
      rw [if_pos hcond]
    rw [hadv]
    refine ⟨rfl, rfl, fun _ => rfl, ?_⟩
    intro d
    apply handleLoadedMetadata_playRequested
    rw [fragmentEffect_wasPlaying]
  · intro hn
    have hstop : handleEnded p s = { s with isPlaying := false } := by
      unfold handleEnded
      rw [if_neg hn]
    rw [hstop]
    exact ⟨rfl, rfl⟩

/-- C7 witness: the advance branch at the three-fragment scenario. -/
theorem c7_witness :
    (handleEnded scenarioProps scenarioState).currentFragmentIndex =
      scenarioState.currentFragmentIndex + 1 ∧
    (handleEnded scenarioProps scenarioState).currentTime = 0 ∧
    (scenarioState.isPlaying = true →
      (handleEnded scenarioProps scenarioState).wasPlaying = true) ∧
    (∀ d : ℚ,
      (handleLoadedMetadata d (fragmentEffect scenarioProps
        (handleEnded scenarioProps scenarioState))).playRequested = true) :=
  (c7_auto_advance scenarioProps scenarioState).1 rfl (by decide)

/-- C8: every stream failure increments the error streak by one, enters
the loading state and leaves exactly one scheduled retry (a previously
scheduled one is cancelled first); a successful `canplay` resets the
streak to 0, which removes the preparing hint. -/
theorem c8_error_streak_and_retry (s : PlayerState) :
    (handleError s).errorCount = s.errorCount + 1 ∧
    (handleError s).isLoading = true ∧
    (handleError s).retryTimers = 1 ∧
    (handleCanPlay s).errorCount = 0 ∧
    preparingHint (handleCanPlay s) = false :=
  ⟨rfl, rfl, rfl, rfl, rfl⟩

/-- C10: a fragment list of length exactly one is NOT multi-fragment mode:
the virtual offset is 0, the displayed total duration is the media-reported
duration (not the ledger sum), the time-update callback reports the raw
physical time, and no fragment-boundary markers are produced. -/
theorem c10_single_fragment_mode (p : AudioPlayerProps) (fs : List AudioFragment)
    (hf : p.fragments = some fs) (h1 : fs.length = 1) :
    isMultiFragment p = false ∧
    ∀ s : PlayerState,
      virtualOffset p s = 0 ∧
      totalDuration p s = s.duration ∧
      (∀ t : ℚ, handleTimeUpdateReport p s t = t) ∧
      fragmentMarkers p s = [] := by
  have hm : isMultiFragment p = false := by
    simp [isMultiFragment, hf, h1]
  refine ⟨hm, fun s => ⟨?_, ?_, ?_, ?_⟩⟩
  · simp [virtualOffset, hm]
  · simp [totalDuration, hm]
  · intro t
    simp [handleTimeUpdateReport, hm]
  · simp [fragmentMarkers, hm]

/-- C10 witness at the concrete single-fragment prop set. -/
theorem c10_witness :
    isMultiFragment singleFragProps = false ∧
    virtualOffset singleFragProps singleFragState = 0 ∧
    totalDuration singleFragProps singleFragState = singleFragState.duration ∧
    handleTimeUpdateReport singleFragProps singleFragState 3 = 3 ∧
    fragmentMarkers singleFragProps singleFragState = [] := by
  have h := c10_single_fragment_mode singleFragProps [⟨"a", 30, "u0", "t0"⟩] rfl rfl
  exact ⟨h.1, (h.2 singleFragState).1, (h.2 singleFragState).2.1,
    (h.2 singleFragState).2.2.1 3, (h.2 singleFragState).2.2.2⟩
